import Mathlib

/-!
Verification of the simperby repository abstraction layer
(`repository/src/raw/mod.rs`): the error taxonomy, the concurrency
bridge (`RawRepositoryImpl` and its `helper_*` dispatch functions), and
the repository operation contract.

The facade file `mod.rs` is embedded directly.  The backend
implementation `RawRepositoryImplInner` (module `implementation`) is not
part of the provided sources, so its operation semantics are modelled
from the specification where a claim depends on them; such definitions
carry a doc comment starting with `Modelled from the spec:`.
-/

namespace Simperby

/-- Branch name (`pub type Branch = String` in the simperby common types). -/
abbrev Branch := String

/-- Tag name. -/
abbrev Tag := String

/-- Opaque fixed-width content identifier of a commit; equality is
byte-equality, modelled by a natural number with decidable equality. -/
abbrev CommitHash := Nat

/-- Timestamp (an integer in the simperby common types). -/
abbrev Timestamp := Int

/-- Member name. -/
abbrev MemberName := String

/-- A `git2::Error`: for the purposes of the facade only its message is
observable (it is carried through `From<git2::Error> for Error` and
printed by the `{0}` of the `thiserror` attribute). -/
structure Git2Error where
  message : String
deriving DecidableEq, Repr

/-- The error taxonomy of `raw/mod.rs` (`enum Error`), with its four
variants: `Git2Error`, `NotFound`, `InvalidRepository`, `Unknown`. -/
inductive Error where
  | git2Error (e : Git2Error)
  | notFound (s : String)
  | invalidRepository (s : String)
  | unknown (s : String)
deriving DecidableEq, Repr

/-- `impl From<git2::Error> for Error`: `Error::Git2Error(e)`. -/
def Error.fromGit2 (e : Git2Error) : Error :=
  Error.git2Error e

/-- The `thiserror`-derived display strings of `enum Error`
(`"git2 error: \x7b0\x7d"`, `"not found: \x7b0\x7d"`,
`"the repository is invalid: \x7b0\x7d"`, `"unknown error: \x7b0\x7d"`). -/
def Error.display : Error → String
  | Error.git2Error e => "git2 error: " ++ e.message
  | Error.notFound s => "not found: " ++ s
  | Error.invalidRepository s => "the repository is invalid: " ++ s
  | Error.unknown s => "unknown error: " ++ s

/-- `Result<T, Error>` of the contract. -/
abbrev RawResult (T : Type) := Except Error T

/-
The concurrency bridge.  `RawRepositoryImpl` holds
`tokio::sync::Mutex<Option<RawRepositoryImplInner>>`; each `helper_N`
acquires the lock, `take()`s the handle out of the `Option` slot
(panicking via `.expect` if the slot is empty), runs the closure on a
blocking thread, and `replace`s the handle before the lock is released.

Each helper is embedded as a pure function from the slot contents to
`Option (result × new slot contents)`; the outer `Option` is `none`
exactly when the helper panics on an empty slot (`.expect`), which in
the program aborts the task rather than returning.  A closure taking
`&mut RawRepositoryImplInner` is modelled as `H → H × R` (the updated
handle and the returned value); a closure taking `&RawRepositoryImplInner`
as `H → R`.
-/

/-- `helper_0`: take the handle, run `f(&inner)`, reinsert the same handle. -/
def helper_0 {H R : Type} (slot : Option H) (f : H → R) :
    Option (R × Option H) :=
  match slot with
  | Option.none => Option.none
  | Option.some inner =>
    let p := (f inner, inner)
    Option.some (p.1, Option.some p.2)

/-- `helper_0_mut`: take the handle, run `f(&mut inner)`, reinsert the
(updated) handle. -/
def helper_0_mut {H R : Type} (slot : Option H) (f : H → H × R) :
    Option (R × Option H) :=
  match slot with
  | Option.none => Option.none
  | Option.some inner =>
    let q := f inner
    Option.some (q.2, Option.some q.1)

/-- `helper_1`: one cloned argument, shared-reference closure. -/
def helper_1 {H T1 R : Type} (slot : Option H) (f : H → T1 → R) (a1 : T1) :
    Option (R × Option H) :=
  match slot with
  | Option.none => Option.none
  | Option.some inner =>
    let p := (f inner a1, inner)
    Option.some (p.1, Option.some p.2)

/-- `helper_1_mut`: one cloned argument, mutable-reference closure. -/
def helper_1_mut {H T1 R : Type} (slot : Option H) (f : H → T1 → H × R)
    (a1 : T1) : Option (R × Option H) :=
  match slot with
  | Option.none => Option.none
  | Option.some inner =>
    let q := f inner a1
    Option.some (q.2, Option.some q.1)

/-- `helper_2`: two cloned arguments, shared-reference closure. -/
def helper_2 {H T1 T2 R : Type} (slot : Option H) (f : H → T1 → T2 → R)
    (a1 : T1) (a2 : T2) : Option (R × Option H) :=
  match slot with
  | Option.none => Option.none
  | Option.some inner =>
    let p := (f inner a1 a2, inner)
    Option.some (p.1, Option.some p.2)

/-- `helper_2_mut`: two cloned arguments, mutable-reference closure. -/
def helper_2_mut {H T1 T2 R : Type} (slot : Option H) (f : H → T1 → T2 → H × R)
    (a1 : T1) (a2 : T2) : Option (R × Option H) :=
  match slot with
  | Option.none => Option.none
  | Option.some inner =>
    let q := f inner a1 a2
    Option.some (q.2, Option.some q.1)

/-- `helper_3`: three cloned arguments, shared-reference closure. -/
def helper_3 {H T1 T2 T3 R : Type} (slot : Option H)
    (f : H → T1 → T2 → T3 → R) (a1 : T1) (a2 : T2) (a3 : T3) :
    Option (R × Option H) :=
  match slot with
  | Option.none => Option.none
  | Option.some inner =>
    let p := (f inner a1 a2 a3, inner)
    Option.some (p.1, Option.some p.2)

/-- `helper_5_mut`: five cloned arguments, mutable-reference closure. -/
def helper_5_mut {H T1 T2 T3 T4 T5 R : Type} (slot : Option H)
    (f : H → T1 → T2 → T3 → T4 → T5 → H × R)
    (a1 : T1) (a2 : T2) (a3 : T3) (a4 : T4) (a5 : T5) :
    Option (R × Option H) :=
  match slot with
  | Option.none => Option.none
  | Option.some inner =>
    let q := f inner a1 a2 a3 a4 a5
    Option.some (q.2, Option.some q.1)

/-- The common exclusive lock-and-checkout path that every helper follows:
take the handle out of the slot (panic if empty), run the dispatched work
once on the handle, reinsert the resulting handle, return the result. -/
def checkoutPath {H R : Type} (slot : Option H) (work : H → R × H) :
    Option (R × Option H) :=
  match slot with
  | Option.none => Option.none
  | Option.some inner =>
    let q := work inner
    Option.some (q.1, Option.some q.2)

/-
Small-step view of one helper invocation, for the temporal claims about
the slot.  The states mirror the lines of `helper_0`/`helper_0_mut`:

* `ready slot` — the lock has been acquired, `lock.take()` not yet run;
* `inFlight slot handle` — `lock.take()` succeeded (so the slot is the
  `Option` left behind), and the closure has been dispatched to the
  blocking pool holding `handle`;
* `returned slot handle r` — the blocking closure completed normally,
  producing result `r` and giving the handle back;
* `finished slot r` — `lock.replace(inner)` has run and the lock is
  about to be released with result `r`;
* `fatal slot` — a panic: either `.expect` on an empty slot, or the
  blocking work aborted instead of returning.
-/
inductive BridgeState (H R : Type) where
  | ready (slot : Option H)
  | inFlight (slot : Option H) (handle : H)
  | returned (slot : Option H) (handle : H) (r : R)
  | finished (slot : Option H) (r : R)
  | fatal (slot : Option H)
deriving DecidableEq

/-- One step of a helper invocation running the blocking work `f`
(modelled as `H → R × H`: the result and the handle given back). -/
inductive BridgeStep {H R : Type} (f : H → R × H) :
    BridgeState H R → BridgeState H R → Prop where
  | take (h : H) :
      BridgeStep f (BridgeState.ready (Option.some h))
        (BridgeState.inFlight Option.none h)
  | takeFail :
      BridgeStep f (BridgeState.ready Option.none)
        (BridgeState.fatal Option.none)
  | runBlocking (s : Option H) (h : H) :
      BridgeStep f (BridgeState.inFlight s h)
        (BridgeState.returned s (f h).2 (f h).1)
  | blockingAbort (s : Option H) (h : H) :
      BridgeStep f (BridgeState.inFlight s h) (BridgeState.fatal s)
  | reinsert (s : Option H) (h : H) (r : R) :
      BridgeStep f (BridgeState.returned s h r)
        (BridgeState.finished (Option.some h) r)

/-- Reachability in the bridge machine. -/
def BridgeReach {H R : Type} (f : H → R × H) :
    BridgeState H R → BridgeState H R → Prop :=
  Relation.ReflTransGen (BridgeStep f)

/-- The slot contents a bridge state exposes to the mutex. -/
def BridgeState.slotOf {H R : Type} : BridgeState H R → Option H
  | BridgeState.ready s => s
  | BridgeState.inFlight s _ => s
  | BridgeState.returned s _ _ => s
  | BridgeState.finished s _ => s
  | BridgeState.fatal s => s

/-- How many copies of the backend handle exist in a bridge state: those
in the slot plus the one checked out to the blocking worker, if any. -/
def BridgeState.handleCount {H R : Type} : BridgeState H R → Nat
  | BridgeState.ready s => s.elim 0 (fun _ => 1)
  | BridgeState.inFlight s _ => s.elim 0 (fun _ => 1) + 1
  | BridgeState.returned s _ _ => s.elim 0 (fun _ => 1) + 1
  | BridgeState.finished s _ => s.elim 0 (fun _ => 1)
  | BridgeState.fatal s => s.elim 0 (fun _ => 1)

/-- `RawRepositoryImpl::init` / `open` / `clone`: build the inner handle,
then wrap it as `Mutex::new(Some(repo))`.  The inner constructor's result
is abstract (the implementation module is not in the provided sources). -/
def lifecycleWrap {H : Type} (innerResult : RawResult H) :
    RawResult (Option H) :=
  match innerResult with
  | Except.error e => Except.error e
  | Except.ok repo => Except.ok (Option.some repo)

/-- Modelled from the spec: the `ReservedState` type lives in
`simperby_common`, outside the provided sources; only its identity
matters here (structured configuration carried by a `Reserved` diff). -/
structure ReservedState where
  data : String
deriving DecidableEq, Repr

/-- Modelled from the spec: `Diff` (from `simperby_common`) is a closed
tagged variant — `None`, `Reserved(structured reserved-state change)`,
and other content-diff variants (collapsed here into `general`). -/
inductive Diff where
  | none
  | general (patch : String)
  | reserved (state : ReservedState)
deriving DecidableEq, Repr

/-- `struct SemanticCommit` of `raw/mod.rs`: a commit with abstracted
diff — title, body, diff, author (physical-layer metadata only), and
timestamp. -/
structure SemanticCommit where
  title : String
  body : String
  diff : Diff
  author : MemberName
  timestamp : Timestamp
deriving DecidableEq, Repr

/-- The methods of `RawRepositoryImplInner` the facade dispatches to,
one field per non-lifecycle contract operation, kept abstract (its
module is not in the provided sources).  A `&self` method is `H → ...`,
a `&mut self` method returns the updated handle as well (`H × ...`). -/
structure InnerOps (H : Type) where
  retrieve_commit_hash : H → String → RawResult CommitHash
  list_branches : H → RawResult (List Branch)
  create_branch : H → Branch → CommitHash → RawResult Unit
  locate_branch : H → Branch → RawResult CommitHash
  get_branches : H → CommitHash → RawResult (List Branch)
  move_branch : H → Branch → CommitHash → H × RawResult Unit
  delete_branch : H → Branch → H × RawResult Unit
  list_tags : H → RawResult (List Tag)
  create_tag : H → Tag → CommitHash → H × RawResult Unit
  locate_tag : H → Tag → RawResult CommitHash
  get_tag : H → CommitHash → RawResult (List Tag)
  remove_tag : H → Tag → H × RawResult Unit
  create_commit :
    H → String → String → String → Timestamp → Option String →
      H × RawResult CommitHash
  create_semantic_commit : H → SemanticCommit → H × RawResult CommitHash
  read_semantic_commit : H → CommitHash → RawResult SemanticCommit
  run_garbage_collection : H → H × RawResult Unit
  checkout_clean : H → H × RawResult Unit
  checkout : H → Branch → H × RawResult Unit
  checkout_detach : H → CommitHash → H × RawResult Unit
  get_head : H → RawResult CommitHash
  get_initial_commit : H → RawResult CommitHash
  get_patch : H → CommitHash → RawResult String
  show_commit : H → CommitHash → RawResult String
  list_ancestors : H → CommitHash → Option Nat → RawResult (List CommitHash)
  query_commit_path : H → CommitHash → CommitHash → RawResult (List CommitHash)
  list_children : H → CommitHash → RawResult (List CommitHash)
  find_merge_base : H → CommitHash → CommitHash → RawResult CommitHash
  read_reserved_state : H → RawResult ReservedState
  add_remote : H → String → String → H × RawResult Unit
  remove_remote : H → String → H × RawResult Unit
  fetch_all : H → H × RawResult Unit
  push_option : H → String → Branch → Option String → RawResult Unit
  list_remotes : H → RawResult (List (String × String))
  list_remote_tracking_branches :
    H → RawResult (List (String × String × CommitHash))
  locate_remote_tracking_branch : H → String → String → RawResult CommitHash

/-
The dispatch table of `impl RawRepository for RawRepositoryImpl`: every
non-lifecycle method forwards to exactly one `helper_N` with the
corresponding `RawRepositoryImplInner` method and its (cloned)
arguments.  Each facade method below is the direct transcription of the
corresponding method body in `raw/mod.rs`.
-/

namespace RawRepositoryImpl

variable {H : Type}

def retrieve_commit_hash (I : InnerOps H) (slot : Option H)
    (revision_selection : String) : Option (RawResult CommitHash × Option H) :=
  helper_1 slot I.retrieve_commit_hash revision_selection

def list_branches (I : InnerOps H) (slot : Option H) :
    Option (RawResult (List Branch) × Option H) :=
  helper_0 slot I.list_branches

def create_branch (I : InnerOps H) (slot : Option H) (branch_name : Branch)
    (commit_hash : CommitHash) : Option (RawResult Unit × Option H) :=
  helper_2 slot I.create_branch branch_name commit_hash

def locate_branch (I : InnerOps H) (slot : Option H) (branch : Branch) :
    Option (RawResult CommitHash × Option H) :=
  helper_1 slot I.locate_branch branch

def get_branches (I : InnerOps H) (slot : Option H) (commit_hash : CommitHash) :
    Option (RawResult (List Branch) × Option H) :=
  helper_1 slot I.get_branches commit_hash

def move_branch (I : InnerOps H) (slot : Option H) (branch : Branch)
    (commit_hash : CommitHash) : Option (RawResult Unit × Option H) :=
  helper_2_mut slot I.move_branch branch commit_hash

def delete_branch (I : InnerOps H) (slot : Option H) (branch : Branch) :
    Option (RawResult Unit × Option H) :=
  helper_1_mut slot I.delete_branch branch

def list_tags (I : InnerOps H) (slot : Option H) :
    Option (RawResult (List Tag) × Option H) :=
  helper_0 slot I.list_tags

def create_tag (I : InnerOps H) (slot : Option H) (tag : Tag)
    (commit_hash : CommitHash) : Option (RawResult Unit × Option H) :=
  helper_2_mut slot I.create_tag tag commit_hash

def locate_tag (I : InnerOps H) (slot : Option H) (tag : Tag) :
    Option (RawResult CommitHash × Option H) :=
  helper_1 slot I.locate_tag tag

def get_tag (I : InnerOps H) (slot : Option H) (commit_hash : CommitHash) :
    Option (RawResult (List Tag) × Option H) :=
  helper_1 slot I.get_tag commit_hash

def remove_tag (I : InnerOps H) (slot : Option H) (tag : Tag) :
    Option (RawResult Unit × Option H) :=
  helper_1_mut slot I.remove_tag tag

def create_commit (I : InnerOps H) (slot : Option H) (commit_message : String)
    (author_name : String) (author_email : String)
    (author_timestamp : Timestamp) (diff : Option String) :
    Option (RawResult CommitHash × Option H) :=
  helper_5_mut slot I.create_commit commit_message author_name author_email
    author_timestamp diff

def create_semantic_commit (I : InnerOps H) (slot : Option H)
    (commit : SemanticCommit) : Option (RawResult CommitHash × Option H) :=
  helper_1_mut slot I.create_semantic_commit commit

def read_semantic_commit (I : InnerOps H) (slot : Option H)
    (commit_hash : CommitHash) : Option (RawResult SemanticCommit × Option H) :=
  helper_1 slot I.read_semantic_commit commit_hash

def run_garbage_collection (I : InnerOps H) (slot : Option H) :
    Option (RawResult Unit × Option H) :=
  helper_0_mut slot I.run_garbage_collection

def checkout_clean (I : InnerOps H) (slot : Option H) :
    Option (RawResult Unit × Option H) :=
  helper_0_mut slot I.checkout_clean

def checkout (I : InnerOps H) (slot : Option H) (branch : Branch) :
    Option (RawResult Unit × Option H) :=
  helper_1_mut slot I.checkout branch

def checkout_detach (I : InnerOps H) (slot : Option H)
    (commit_hash : CommitHash) : Option (RawResult Unit × Option H) :=
  helper_1_mut slot I.checkout_detach commit_hash

def get_head (I : InnerOps H) (slot : Option H) :
    Option (RawResult CommitHash × Option H) :=
  helper_0 slot I.get_head

def get_initial_commit (I : InnerOps H) (slot : Option H) :
    Option (RawResult CommitHash × Option H) :=
  helper_0 slot I.get_initial_commit

def get_patch (I : InnerOps H) (slot : Option H) (commit_hash : CommitHash) :
    Option (RawResult String × Option H) :=
  helper_1 slot I.get_patch commit_hash

def show_commit (I : InnerOps H) (slot : Option H) (commit_hash : CommitHash) :
    Option (RawResult String × Option H) :=
  helper_1 slot I.show_commit commit_hash

def list_ancestors (I : InnerOps H) (slot : Option H)
    (commit_hash : CommitHash) (max : Option Nat) :
    Option (RawResult (List CommitHash) × Option H) :=
  helper_2 slot I.list_ancestors commit_hash max

def query_commit_path (I : InnerOps H) (slot : Option H)
    (ancestor : CommitHash) (descendant : CommitHash) :
    Option (RawResult (List CommitHash) × Option H) :=
  helper_2 slot I.query_commit_path ancestor descendant

def list_children (I : InnerOps H) (slot : Option H)
    (commit_hash : CommitHash) :
    Option (RawResult (List CommitHash) × Option H) :=
  helper_1 slot I.list_children commit_hash

def find_merge_base (I : InnerOps H) (slot : Option H)
    (commit_hash1 : CommitHash) (commit_hash2 : CommitHash) :
    Option (RawResult CommitHash × Option H) :=
  helper_2 slot I.find_merge_base commit_hash1 commit_hash2

def read_reserved_state (I : InnerOps H) (slot : Option H) :
    Option (RawResult ReservedState × Option H) :=
  helper_0 slot I.read_reserved_state

def add_remote (I : InnerOps H) (slot : Option H) (remote_name : String)
    (remote_url : String) : Option (RawResult Unit × Option H) :=
  helper_2_mut slot I.add_remote remote_name remote_url

def remove_remote (I : InnerOps H) (slot : Option H) (remote_name : String) :
    Option (RawResult Unit × Option H) :=
  helper_1_mut slot I.remove_remote remote_name

def fetch_all (I : InnerOps H) (slot : Option H) :
    Option (RawResult Unit × Option H) :=
  helper_0_mut slot I.fetch_all

def push_option (I : InnerOps H) (slot : Option H) (remote_name : String)
    (branch : Branch) (opt : Option String) :
    Option (RawResult Unit × Option H) :=
  helper_3 slot I.push_option remote_name branch opt

def list_remotes (I : InnerOps H) (slot : Option H) :
    Option (RawResult (List (String × String)) × Option H) :=
  helper_0 slot I.list_remotes

def list_remote_tracking_branches (I : InnerOps H) (slot : Option H) :
    Option (RawResult (List (String × String × CommitHash)) × Option H) :=
  helper_0 slot I.list_remote_tracking_branches

def locate_remote_tracking_branch (I : InnerOps H) (slot : Option H)
    (remote_name : String) (branch_name : String) :
    Option (RawResult CommitHash × Option H) :=
  helper_2 slot I.locate_remote_tracking_branch remote_name branch_name

end RawRepositoryImpl

/-
Semantic-commit model.  The bodies of
`RawRepositoryImplInner::create_semantic_commit` and
`read_semantic_commit` live in the `implementation` module, which is not
among the provided sources; the definitions below are modelled from the
specification.
-/

/-- Modelled from the spec: the payload of a physical commit — either the
semantic encoding of (title, body, diff) produced by the semantic path
(the spec requires the encoding to round-trip title/body/diff exactly),
or a raw message from the non-semantic `create_commit` path, which the
semantic decoder rejects. -/
inductive CommitContent where
  | semantic (title : String) (body : String) (diff : Diff)
  | raw (message : String)
deriving DecidableEq, Repr

/-- Modelled from the spec: a physical commit — immutable node of the
DAG with zero or more parents, addressed by `CommitHash`. -/
structure PhysCommit where
  content : CommitContent
  parents : List CommitHash
  author : MemberName
  timestamp : Timestamp
deriving DecidableEq, Repr

/-- Modelled from the spec: the repository state the semantic-commit
operations act on — the commit store, the current `HEAD` of the
checked-out branch, and a supply of fresh commit identifiers. -/
structure RepoState where
  commits : List (CommitHash × PhysCommit)
  head : CommitHash
  nextHash : CommitHash
deriving DecidableEq, Repr

/-- Modelled from the spec:
`RawRepositoryImplInner::create_semantic_commit` — fails with
`InvalidRepository` unless the diff is `None` or `Reserved`; otherwise
appends a commit whose sole parent is the current `HEAD` of the
checked-out branch, encoding title/body/diff, and moves `HEAD` to it. -/
def RepoState.create_semantic_commit (repo : RepoState)
    (sc : SemanticCommit) : RawResult (CommitHash × RepoState) :=
  match sc.diff with
  | Diff.general _ =>
    Except.error (Error.invalidRepository "diff type not supported")
  | _ =>
    let h := repo.nextHash
    let c : PhysCommit :=
      { content := CommitContent.semantic sc.title sc.body sc.diff
        parents := [repo.head]
        author := sc.author
        timestamp := sc.timestamp }
    Except.ok (h, { commits := (h, c) :: repo.commits
                    head := h
                    nextHash := repo.nextHash + 1 })

/-- Modelled from the spec:
`RawRepositoryImplInner::read_semantic_commit` — decodes a physical
commit back into a `SemanticCommit`; fails if the commit does not exist
or was not created through the semantic path. -/
def RepoState.read_semantic_commit (repo : RepoState) (h : CommitHash) :
    RawResult SemanticCommit :=
  match repo.commits.lookup h with
  | Option.none => Except.error (Error.notFound "commit")
  | Option.some c =>
    match c.content with
    | CommitContent.raw _ =>
      Except.error (Error.invalidRepository "not a semantic commit")
    | CommitContent.semantic t b d =>
      Except.ok { title := t, body := b, diff := d
                  author := c.author, timestamp := c.timestamp }

/-
DAG-query model for `list_ancestors`, `query_commit_path` and
`find_merge_base`, modelled from the specification (the implementing
module is not among the provided sources).
-/

/-- Modelled from the spec: the commit DAG — the commits of the
repository and the parent lists of each.  A hash absent from the map has
no parents (an initial commit). -/
structure CommitDag where
  nodes : List CommitHash
  parentMap : List (CommitHash × List CommitHash)
deriving DecidableEq, Repr

/-- The parents of a commit in the DAG. -/
def CommitDag.parents (dag : CommitDag) (h : CommitHash) : List CommitHash :=
  (dag.parentMap.lookup h).getD []

/-- `reachable dag n a b`: `a` is `b` or an ancestor of `b` within `n`
parent steps. -/
def CommitDag.reachable (dag : CommitDag) : Nat → CommitHash → CommitHash → Bool
  | 0, a, b => a == b
  | n + 1, a, b => a == b || (dag.parents b).any (fun p => dag.reachable n a p)

/-- The longest distance from a commit down to an initial commit, within
`n` steps (the generation number used to pick the nearest ancestor). -/
def CommitDag.depth (dag : CommitDag) : Nat → CommitHash → Nat
  | 0, _ => 0
  | n + 1, c =>
    match dag.parents c with
    | [] => 0
    | ps => 1 + (ps.map (dag.depth n)).foldl max 0

/-- The fuel every DAG query runs with: one more than the number of
commits, enough for any acyclic walk. -/
def CommitDag.fuel (dag : CommitDag) : Nat :=
  dag.nodes.length + 1

/-- Modelled from the spec: the common ancestors of two commits — the
commits of the DAG from which both are reachable. -/
def CommitDag.commonAncestors (dag : CommitDag) (h1 h2 : CommitHash) :
    List CommitHash :=
  dag.nodes.filter
    (fun c => dag.reachable dag.fuel c h1 && dag.reachable dag.fuel c h2)

/-- Picks a deepest commit of a candidate list (the nearest common
ancestor), `none` on the empty list. -/
def CommitDag.pickDeepest (dag : CommitDag) :
    List CommitHash → Option CommitHash :=
  List.foldl
    (fun acc c =>
      match acc with
      | Option.none => Option.some c
      | Option.some b =>
        if dag.depth dag.fuel b < dag.depth dag.fuel c then Option.some c
        else Option.some b)
    Option.none

/-- Modelled from the spec: `RawRepositoryImplInner::find_merge_base` —
the nearest common ancestor of the two commits; fails if they have no
common ancestor (a violated assumption, hence `InvalidRepository`). -/
def CommitDag.find_merge_base (dag : CommitDag) (h1 h2 : CommitHash) :
    RawResult CommitHash :=
  match dag.pickDeepest (dag.commonAncestors h1 h2) with
  | Option.none =>
    Except.error (Error.invalidRepository "no merge base")
  | Option.some mb => Except.ok mb

/-- Modelled from the spec: the ancestor walk of `list_ancestors` —
follow sole parents from the commit, nearest first, stopping at an
initial commit or after `remaining` entries; a commit with more than one
parent (a merge commit) violates the linear-history assumption and fails
with `InvalidRepository`. -/
def CommitDag.ancestorWalk (dag : CommitDag) :
    Nat → CommitHash → Option Nat → RawResult (List CommitHash)
  | 0, _, _ => Except.error (Error.unknown "walk did not terminate")
  | n + 1, c, remaining =>
    if remaining = Option.some 0 then Except.ok []
    else
      match dag.parents c with
      | [] => Except.ok []
      | [p] =>
        match dag.ancestorWalk n p (remaining.map (· - 1)) with
        | Except.ok l => Except.ok (p :: l)
        | Except.error e => Except.error e
      | _ :: _ :: _ =>
        Except.error (Error.invalidRepository "merge commit encountered")

/-- Modelled from the spec: `RawRepositoryImplInner::list_ancestors` —
the ancestors of the commit ordered nearest-first, capped at `max` when
given. -/
def CommitDag.list_ancestors (dag : CommitDag) (h : CommitHash)
    (max : Option Nat) : RawResult (List CommitHash) :=
  dag.ancestorWalk dag.fuel h max

/-- Modelled from the spec: the descent of `query_commit_path` — collect
the commits from the very next commit of `anc` up to and including
`desc`, walking first parents down from `desc`. -/
def CommitDag.pathWalk (dag : CommitDag) :
    Nat → CommitHash → CommitHash → RawResult (List CommitHash)
  | 0, _, _ => Except.error (Error.unknown "walk did not terminate")
  | n + 1, anc, desc =>
    if desc == anc then Except.ok []
    else
      match dag.parents desc with
      | [] => Except.error (Error.invalidRepository "ancestor not reached")
      | p :: _ =>
        match dag.pathWalk n anc p with
        | Except.ok l => Except.ok (l ++ [desc])
        | Except.error e => Except.error e

/-- The number of first-parent steps from `desc` up to `anc`, if `anc`
is reached within the fuel: the DAG distance between the two commits. -/
def CommitDag.distance (dag : CommitDag) :
    Nat → CommitHash → CommitHash → Option Nat
  | 0, _, _ => Option.none
  | n + 1, anc, desc =>
    if desc == anc then Option.some 0
    else
      match dag.parents desc with
      | [] => Option.none
      | p :: _ => (dag.distance n anc p).map (· + 1)

/-- Modelled from the spec: `RawRepositoryImplInner::query_commit_path`
— fails if the two commits are equal, fails if `ancestor` is not the
merge base of the pair, and otherwise returns the commits strictly after
`ancestor` up to and including `descendant`. -/
def CommitDag.query_commit_path (dag : CommitDag)
    (ancestor descendant : CommitHash) : RawResult (List CommitHash) :=
  if ancestor == descendant then
    Except.error (Error.invalidRepository "same commits")
  else
    match dag.find_merge_base ancestor descendant with
    | Except.error e => Except.error e
    | Except.ok mb =>
      if mb == ancestor then dag.pathWalk dag.fuel ancestor descendant
      else Except.error (Error.invalidRepository "not a merge base")

/-- Whether a bridge state is the aftermath of a panic. -/
def BridgeState.isFatal {H R : Type} : BridgeState H R → Bool
  | BridgeState.fatal _ => true
  | _ => false

/-- `LinearChain dag h l`: `l` is the full ancestor chain of `h`,
nearest first, through sole parents down to an initial commit. -/
inductive LinearChain (dag : CommitDag) : CommitHash → List CommitHash → Prop
  | nil {h : CommitHash} : dag.parents h = [] → LinearChain dag h []
  | cons {h p : CommitHash} {l : List CommitHash} :
      dag.parents h = [p] → LinearChain dag p l → LinearChain dag h (p :: l)

/-- `MergeReach dag h n`: following sole parents from `h` for `n` steps
reaches a commit with more than one parent (a merge commit). -/
inductive MergeReach (dag : CommitDag) : CommitHash → Nat → Prop
  | here {h a b : CommitHash} {rest : List CommitHash} :
      dag.parents h = a :: b :: rest → MergeReach dag h 0
  | there {h p : CommitHash} {n : Nat} :
      dag.parents h = [p] → MergeReach dag p n → MergeReach dag h (n + 1)

/-- `FirstParentPath dag anc desc cs`: `cs` is the list of commits
strictly after `anc` up to and including `desc`, along first parents
from `desc` down to `anc`; its length is the DAG distance between the
two commits. -/
inductive FirstParentPath (dag : CommitDag) (anc : CommitHash) :
    CommitHash → List CommitHash → Prop
  | refl : FirstParentPath dag anc anc []
  | step {desc p : CommitHash} {rest cs : List CommitHash} :
      desc ≠ anc → dag.parents desc = p :: rest →
      FirstParentPath dag anc p cs →
      FirstParentPath dag anc desc (cs ++ [desc])

/-
Shared lemmas about the bridge machine.
-/

/-- Every state reachable from a ready state holding a handle is one of
the five stations of a single helper invocation. -/
theorem bridgeReach_ready_some {H R : Type} (f : H → R × H) (h : H)
    (s' : BridgeState H R)
    (hr : BridgeReach f (BridgeState.ready (Option.some h)) s') :
    s' = BridgeState.ready (Option.some h) ∨
    s' = BridgeState.inFlight Option.none h ∨
    s' = BridgeState.returned Option.none (f h).2 (f h).1 ∨
    s' = BridgeState.finished (Option.some (f h).2) (f h).1 ∨
    s' = BridgeState.fatal Option.none := by
  induction hr with
  | refl => exact Or.inl rfl
  | tail _ hstep ih =>
    rcases ih with h1 | h1 | h1 | h1 | h1 <;> subst h1 <;> cases hstep
    · exact Or.inr (Or.inl rfl)
    · exact Or.inr (Or.inr (Or.inl rfl))
    · exact Or.inr (Or.inr (Or.inr (Or.inr rfl)))
    · exact Or.inr (Or.inr (Or.inr (Or.inl rfl)))

/-- From a ready state with an empty slot the machine can only panic on
the `.expect`. -/
theorem bridgeReach_ready_none {H R : Type} (f : H → R × H)
    (s' : BridgeState H R)
    (hr : BridgeReach f (BridgeState.ready Option.none) s') :
    s' = BridgeState.ready Option.none ∨
    s' = BridgeState.fatal Option.none := by
  induction hr with
  | refl => exact Or.inl rfl
  | tail _ hstep ih =>
    rcases ih with h1 | h1 <;> subst h1 <;> cases hstep
    exact Or.inr rfl

/-- No step leaves a fatal state. -/
theorem no_step_from_fatal {H R : Type} (f : H → R × H) (s : Option H)
    (t : BridgeState H R) : ¬ BridgeStep f (BridgeState.fatal s) t := by
  intro h
  cases h

/-- Claim C1: in every helper invocation the handle is removed from the
mutex-guarded slot before the blocking work is dispatched (the slot is
empty while work is in flight) and is reinserted before the lock is
released, for every dispatched closure (success or error result alike);
under normal completion the handle is never duplicated or lost (the
handle count stays exactly one in every non-fatal state), and a
successful `init`/`open`/`clone` leaves the slot holding exactly one
handle. -/
theorem claim_C1_slot_checkout_checkin :
    (∀ (H R : Type) (f : H → R × H) (h : H) (s' : BridgeState H R),
      BridgeReach f (BridgeState.ready (Option.some h)) s' →
        (∀ sl hd, s' = BridgeState.inFlight sl hd → sl = Option.none) ∧
        (∀ sl r, s' = BridgeState.finished sl r →
          sl = Option.some (f h).2) ∧
        (s'.isFatal = false → s'.handleCount = 1)) ∧
    (∀ (H : Type) (r : RawResult H) (s : Option H),
      lifecycleWrap r = Except.ok s → ∃ h0, s = Option.some h0) := by
  constructor
  · intro H R f h s' hr
    rcases bridgeReach_ready_some f h s' hr with h1 | h1 | h1 | h1 | h1 <;>
      subst h1
    · exact ⟨fun sl hd he => BridgeState.noConfusion he,
        fun sl r he => BridgeState.noConfusion he, fun _ => rfl⟩
    · exact ⟨fun sl hd he => by injection he with h1 h2; exact h1.symm,
        fun sl r he => BridgeState.noConfusion he, fun _ => rfl⟩
    · exact ⟨fun sl hd he => BridgeState.noConfusion he,
        fun sl r he => BridgeState.noConfusion he, fun _ => rfl⟩
    · exact ⟨fun sl hd he => BridgeState.noConfusion he,
        fun sl r he => by injection he with h1 h2; exact h1.symm,
        fun _ => rfl⟩
    · exact ⟨fun sl hd he => BridgeState.noConfusion he,
        fun sl r he => BridgeState.noConfusion he,
        fun hf => absurd hf (by simp [BridgeState.isFatal])⟩
  · intro H r s hw
    cases r with
    | error e => simp [lifecycleWrap] at hw
    | ok repo =>
      simp [lifecycleWrap] at hw
      exact ⟨repo, hw.symm⟩

/-- Witness for C1 on a concrete run: the helper over `Nat` handles with
work `n ↦ (n + 7, n + 1)` started on slot `some 0` reaches
`finished (some 1) 7`, a state of handle count one, and a successful
lifecycle wrap yields a one-handle slot. -/
theorem claim_C1_slot_checkout_checkin_witness :
    (BridgeState.finished (Option.some 1) 7 : BridgeState Nat Nat).handleCount
        = 1 ∧
    (∃ h0 : Nat, (Option.some 1 : Option Nat) = Option.some h0) := by
  have hstep1 : BridgeStep (fun n : Nat => (n + 7, n + 1))
      (BridgeState.ready (Option.some 0)) (BridgeState.inFlight Option.none 0) :=
    BridgeStep.take 0
  have hstep2 : BridgeStep (fun n : Nat => (n + 7, n + 1))
      (BridgeState.inFlight Option.none 0)
      (BridgeState.returned Option.none 1 7) :=
    BridgeStep.runBlocking Option.none 0
  have hstep3 : BridgeStep (fun n : Nat => (n + 7, n + 1))
      (BridgeState.returned Option.none 1 7)
      (BridgeState.finished (Option.some 1) 7) :=
    BridgeStep.reinsert Option.none 1 7
  have hreach : BridgeReach (fun n : Nat => (n + 7, n + 1))
      (BridgeState.ready (Option.some 0))
      (BridgeState.finished (Option.some 1) 7) :=
    Relation.ReflTransGen.head hstep1
      (Relation.ReflTransGen.head hstep2
        (Relation.ReflTransGen.head hstep3 Relation.ReflTransGen.refl))
  exact ⟨(claim_C1_slot_checkout_checkin.1 Nat Nat
      (fun n : Nat => (n + 7, n + 1)) 0 _ hreach).2.2 rfl,
    claim_C1_slot_checkout_checkin.2 Nat (Except.ok 1) (Option.some 1) rfl⟩

/-- Claim C3: if the dispatched blocking work aborts instead of
returning, the handle is never reinserted (the slot stays empty); no
step leaves a fatal state; and every subsequent invocation on the
emptied instance only panics on the `.expect` — it can never reach a
finished state, so the instance is permanently unusable. -/
theorem claim_C3_panic_permanently_fatal :
    (∀ (H R : Type) (f : H → R × H) (h : H) (sl : Option H),
      BridgeStep f (BridgeState.inFlight Option.none h)
          (BridgeState.fatal sl) →
        sl = Option.none) ∧
    (∀ (H R : Type) (f : H → R × H) (s : Option H) (t : BridgeState H R),
      ¬ BridgeStep f (BridgeState.fatal s) t) ∧
    (∀ (H R : Type) (f : H → R × H) (s' : BridgeState H R),
      BridgeReach f (BridgeState.ready Option.none) s' →
        s' = BridgeState.ready Option.none ∨
        s' = BridgeState.fatal Option.none) ∧
    (∀ (H R : Type) (f : H → R × H) (sl : Option H) (r : R),
      ¬ BridgeReach f (BridgeState.ready Option.none)
          (BridgeState.finished sl r)) := by
  refine ⟨?_, ?_, ?_, ?_⟩
  · intro H R f h sl hstep
    cases hstep
    rfl
  · intro H R f s t
    exact no_step_from_fatal f s t
  · intro H R f s' hr
    exact bridgeReach_ready_none f s' hr
  · intro H R f sl r hr
    rcases bridgeReach_ready_none f _ hr with h1 | h1 <;>
      exact BridgeState.noConfusion h1

/-- Witness for C3 at a concrete abort: aborting the in-flight work on a
`Nat` instance leaves the slot empty, fatal states admit no step, and no
finished state is reachable from the emptied slot. -/
theorem claim_C3_panic_permanently_fatal_witness :
    (Option.none : Option Nat) = Option.none ∧
    ¬ BridgeStep (fun n : Nat => (n, n))
        (BridgeState.fatal (Option.none : Option Nat))
        (BridgeState.ready Option.none) ∧
    ¬ BridgeReach (fun n : Nat => (n, n))
        (BridgeState.ready (Option.none : Option Nat))
        (BridgeState.finished Option.none 0) := by
  refine ⟨?_, ?_, ?_⟩
  · exact claim_C3_panic_permanently_fatal.1 Nat Nat (fun n => (n, n)) 0
      Option.none (BridgeStep.blockingAbort Option.none 0)
  · exact claim_C3_panic_permanently_fatal.2.1 Nat Nat (fun n => (n, n))
      Option.none (BridgeState.ready Option.none)
  · exact claim_C3_panic_permanently_fatal.2.2.2 Nat Nat (fun n => (n, n))
      Option.none 0

/-
Each helper is an instance of the single exclusive checkout path.
-/

theorem helper_0_eq_checkoutPath {H R : Type} (slot : Option H) (f : H → R) :
    helper_0 slot f = checkoutPath slot (fun h => (f h, h)) := by
  cases slot <;> rfl

theorem helper_0_mut_eq_checkoutPath {H R : Type} (slot : Option H)
    (f : H → H × R) :
    helper_0_mut slot f = checkoutPath slot (fun h => ((f h).2, (f h).1)) := by
  cases slot <;> rfl

theorem helper_1_eq_checkoutPath {H T1 R : Type} (slot : Option H)
    (f : H → T1 → R) (a1 : T1) :
    helper_1 slot f a1 = checkoutPath slot (fun h => (f h a1, h)) := by
  cases slot <;> rfl

theorem helper_1_mut_eq_checkoutPath {H T1 R : Type} (slot : Option H)
    (f : H → T1 → H × R) (a1 : T1) :
    helper_1_mut slot f a1 =
      checkoutPath slot (fun h => ((f h a1).2, (f h a1).1)) := by
  cases slot <;> rfl

theorem helper_2_eq_checkoutPath {H T1 T2 R : Type} (slot : Option H)
    (f : H → T1 → T2 → R) (a1 : T1) (a2 : T2) :
    helper_2 slot f a1 a2 = checkoutPath slot (fun h => (f h a1 a2, h)) := by
  cases slot <;> rfl

theorem helper_2_mut_eq_checkoutPath {H T1 T2 R : Type} (slot : Option H)
    (f : H → T1 → T2 → H × R) (a1 : T1) (a2 : T2) :
    helper_2_mut slot f a1 a2 =
      checkoutPath slot (fun h => ((f h a1 a2).2, (f h a1 a2).1)) := by
  cases slot <;> rfl

theorem helper_3_eq_checkoutPath {H T1 T2 T3 R : Type} (slot : Option H)
    (f : H → T1 → T2 → T3 → R) (a1 : T1) (a2 : T2) (a3 : T3) :
    helper_3 slot f a1 a2 a3 =
      checkoutPath slot (fun h => (f h a1 a2 a3, h)) := by
  cases slot <;> rfl

theorem helper_5_mut_eq_checkoutPath {H T1 T2 T3 T4 T5 R : Type}
    (slot : Option H) (f : H → T1 → T2 → T3 → T4 → T5 → H × R)
    (a1 : T1) (a2 : T2) (a3 : T3) (a4 : T4) (a5 : T5) :
    helper_5_mut slot f a1 a2 a3 a4 a5 =
      checkoutPath slot
        (fun h => ((f h a1 a2 a3 a4 a5).2, (f h a1 a2 a3 a4 a5).1)) := by
  cases slot <;> rfl

/-- Claim C2: every non-lifecycle operation of `RawRepositoryImpl` —
read-only queries and mutating operations alike — factors through the
one exclusive lock-and-checkout path (`checkoutPath`, the take/dispatch/
reinsert discipline of the helpers); no operation bypasses it, so all
backend calls against one instance are serialized by the single mutex. -/
theorem claim_C2_all_ops_serialized_through_checkout :
    ∀ (H : Type) (I : InnerOps H) (slot : Option H),
      (∀ rs, RawRepositoryImpl.retrieve_commit_hash I slot rs =
        checkoutPath slot (fun h => (I.retrieve_commit_hash h rs, h))) ∧
      (RawRepositoryImpl.list_branches I slot =
        checkoutPath slot (fun h => (I.list_branches h, h))) ∧
      (∀ b c, RawRepositoryImpl.create_branch I slot b c =
        checkoutPath slot (fun h => (I.create_branch h b c, h))) ∧
      (∀ b, RawRepositoryImpl.locate_branch I slot b =
        checkoutPath slot (fun h => (I.locate_branch h b, h))) ∧
      (∀ c, RawRepositoryImpl.get_branches I slot c =
        checkoutPath slot (fun h => (I.get_branches h c, h))) ∧
      (∀ b c, RawRepositoryImpl.move_branch I slot b c =
        checkoutPath slot
          (fun h => ((I.move_branch h b c).2, (I.move_branch h b c).1))) ∧
      (∀ b, RawRepositoryImpl.delete_branch I slot b =
        checkoutPath slot
          (fun h => ((I.delete_branch h b).2, (I.delete_branch h b).1))) ∧
      (RawRepositoryImpl.list_tags I slot =
        checkoutPath slot (fun h => (I.list_tags h, h))) ∧
      (∀ t c, RawRepositoryImpl.create_tag I slot t c =
        checkoutPath slot
          (fun h => ((I.create_tag h t c).2, (I.create_tag h t c).1))) ∧
      (∀ t, RawRepositoryImpl.locate_tag I slot t =
        checkoutPath slot (fun h => (I.locate_tag h t, h))) ∧
      (∀ c, RawRepositoryImpl.get_tag I slot c =
        checkoutPath slot (fun h => (I.get_tag h c, h))) ∧
      (∀ t, RawRepositoryImpl.remove_tag I slot t =
        checkoutPath slot
          (fun h => ((I.remove_tag h t).2, (I.remove_tag h t).1))) ∧
      (∀ m an ae ts d, RawRepositoryImpl.create_commit I slot m an ae ts d =
        checkoutPath slot
          (fun h => ((I.create_commit h m an ae ts d).2,
            (I.create_commit h m an ae ts d).1))) ∧
      (∀ sc, RawRepositoryImpl.create_semantic_commit I slot sc =
        checkoutPath slot
          (fun h => ((I.create_semantic_commit h sc).2,
            (I.create_semantic_commit h sc).1))) ∧
      (∀ c, RawRepositoryImpl.read_semantic_commit I slot c =
        checkoutPath slot (fun h => (I.read_semantic_commit h c, h))) ∧
      (RawRepositoryImpl.run_garbage_collection I slot =
        checkoutPath slot
          (fun h => ((I.run_garbage_collection h).2,
            (I.run_garbage_collection h).1))) ∧
      (RawRepositoryImpl.checkout_clean I slot =
        checkoutPath slot
          (fun h => ((I.checkout_clean h).2, (I.checkout_clean h).1))) ∧
      (∀ b, RawRepositoryImpl.checkout I slot b =
        checkoutPath slot
          (fun h => ((I.checkout h b).2, (I.checkout h b).1))) ∧
      (∀ c, RawRepositoryImpl.checkout_detach I slot c =
        checkoutPath slot
          (fun h => ((I.checkout_detach h c).2, (I.checkout_detach h c).1))) ∧
      (RawRepositoryImpl.get_head I slot =
        checkoutPath slot (fun h => (I.get_head h, h))) ∧
      (RawRepositoryImpl.get_initial_commit I slot =
        checkoutPath slot (fun h => (I.get_initial_commit h, h))) ∧
      (∀ c, RawRepositoryImpl.get_patch I slot c =
        checkoutPath slot (fun h => (I.get_patch h c, h))) ∧
      (∀ c, RawRepositoryImpl.show_commit I slot c =
        checkoutPath slot (fun h => (I.show_commit h c, h))) ∧
      (∀ c m, RawRepositoryImpl.list_ancestors I slot c m =
        checkoutPath slot (fun h => (I.list_ancestors h c m, h))) ∧
      (∀ a d, RawRepositoryImpl.query_commit_path I slot a d =
        checkoutPath slot (fun h => (I.query_commit_path h a d, h))) ∧
      (∀ c, RawRepositoryImpl.list_children I slot c =
        checkoutPath slot (fun h => (I.list_children h c, h))) ∧
      (∀ c1 c2, RawRepositoryImpl.find_merge_base I slot c1 c2 =
        checkoutPath slot (fun h => (I.find_merge_base h c1 c2, h))) ∧
      (RawRepositoryImpl.read_reserved_state I slot =
        checkoutPath slot (fun h => (I.read_reserved_state h, h))) ∧
      (∀ n u, RawRepositoryImpl.add_remote I slot n u =
        checkoutPath slot
          (fun h => ((I.add_remote h n u).2, (I.add_remote h n u).1))) ∧
      (∀ n, RawRepositoryImpl.remove_remote I slot n =
        checkoutPath slot
          (fun h => ((I.remove_remote h n).2, (I.remove_remote h n).1))) ∧
      (RawRepositoryImpl.fetch_all I slot =
        checkoutPath slot
          (fun h => ((I.fetch_all h).2, (I.fetch_all h).1))) ∧
      (∀ n b o, RawRepositoryImpl.push_option I slot n b o =
        checkoutPath slot (fun h => (I.push_option h n b o, h))) ∧
      (RawRepositoryImpl.list_remotes I slot =
        checkoutPath slot (fun h => (I.list_remotes h, h))) ∧
      (RawRepositoryImpl.list_remote_tracking_branches I slot =
        checkoutPath slot
          (fun h => (I.list_remote_tracking_branches h, h))) ∧
      (∀ n b, RawRepositoryImpl.locate_remote_tracking_branch I slot n b =
        checkoutPath slot
          (fun h => (I.locate_remote_tracking_branch h n b, h))) := by
  intro H I slot
  exact ⟨fun rs => helper_1_eq_checkoutPath slot _ rs,
    helper_0_eq_checkoutPath slot _,
    fun b c => helper_2_eq_checkoutPath slot _ b c,
    fun b => helper_1_eq_checkoutPath slot _ b,
    fun c => helper_1_eq_checkoutPath slot _ c,
    fun b c => helper_2_mut_eq_checkoutPath slot _ b c,
    fun b => helper_1_mut_eq_checkoutPath slot _ b,
    helper_0_eq_checkoutPath slot _,
    fun t c => helper_2_mut_eq_checkoutPath slot _ t c,
    fun t => helper_1_eq_checkoutPath slot _ t,
    fun c => helper_1_eq_checkoutPath slot _ c,
    fun t => helper_1_mut_eq_checkoutPath slot _ t,
    fun m an ae ts d => helper_5_mut_eq_checkoutPath slot _ m an ae ts d,
    fun sc => helper_1_mut_eq_checkoutPath slot _ sc,
    fun c => helper_1_eq_checkoutPath slot _ c,
    helper_0_mut_eq_checkoutPath slot _,
    helper_0_mut_eq_checkoutPath slot _,
    fun b => helper_1_mut_eq_checkoutPath slot _ b,
    fun c => helper_1_mut_eq_checkoutPath slot _ c,
    helper_0_eq_checkoutPath slot _,
    helper_0_eq_checkoutPath slot _,
    fun c => helper_1_eq_checkoutPath slot _ c,
    fun c => helper_1_eq_checkoutPath slot _ c,
    fun c m => helper_2_eq_checkoutPath slot _ c m,
    fun a d => helper_2_eq_checkoutPath slot _ a d,
    fun c => helper_1_eq_checkoutPath slot _ c,
    fun c1 c2 => helper_2_eq_checkoutPath slot _ c1 c2,
    helper_0_eq_checkoutPath slot _,
    fun n u => helper_2_mut_eq_checkoutPath slot _ n u,
    fun n => helper_1_mut_eq_checkoutPath slot _ n,
    helper_0_mut_eq_checkoutPath slot _,
    fun n b o => helper_3_eq_checkoutPath slot _ n b o,
    helper_0_eq_checkoutPath slot _,
    helper_0_eq_checkoutPath slot _,
    fun n b => helper_2_eq_checkoutPath slot _ n b⟩

/-- Claim C10: the facade is a pure per-call forwarding layer — for
every operation other than `init`/`open`/`clone`, on a populated slot
the value returned to the caller is exactly the value the corresponding
`RawRepositoryImplInner` method produces on the same handle and
arguments (and the reinserted handle is exactly the handle the inner
method leaves behind); nothing is altered, dropped, or fabricated. -/
theorem claim_C10_facade_forwards_inner_results :
    ∀ (H : Type) (I : InnerOps H) (h : H),
      (∀ rs, RawRepositoryImpl.retrieve_commit_hash I (Option.some h) rs =
        Option.some (I.retrieve_commit_hash h rs, Option.some h)) ∧
      (RawRepositoryImpl.list_branches I (Option.some h) =
        Option.some (I.list_branches h, Option.some h)) ∧
      (∀ b c, RawRepositoryImpl.create_branch I (Option.some h) b c =
        Option.some (I.create_branch h b c, Option.some h)) ∧
      (∀ b, RawRepositoryImpl.locate_branch I (Option.some h) b =
        Option.some (I.locate_branch h b, Option.some h)) ∧
      (∀ c, RawRepositoryImpl.get_branches I (Option.some h) c =
        Option.some (I.get_branches h c, Option.some h)) ∧
      (∀ b c, RawRepositoryImpl.move_branch I (Option.some h) b c =
        Option.some ((I.move_branch h b c).2,
          Option.some (I.move_branch h b c).1)) ∧
      (∀ b, RawRepositoryImpl.delete_branch I (Option.some h) b =
        Option.some ((I.delete_branch h b).2,
          Option.some (I.delete_branch h b).1)) ∧
      (RawRepositoryImpl.list_tags I (Option.some h) =
        Option.some (I.list_tags h, Option.some h)) ∧
      (∀ t c, RawRepositoryImpl.create_tag I (Option.some h) t c =
        Option.some ((I.create_tag h t c).2,
          Option.some (I.create_tag h t c).1)) ∧
      (∀ t, RawRepositoryImpl.locate_tag I (Option.some h) t =
        Option.some (I.locate_tag h t, Option.some h)) ∧
      (∀ c, RawRepositoryImpl.get_tag I (Option.some h) c =
        Option.some (I.get_tag h c, Option.some h)) ∧
      (∀ t, RawRepositoryImpl.remove_tag I (Option.some h) t =
        Option.some ((I.remove_tag h t).2,
          Option.some (I.remove_tag h t).1)) ∧
      (∀ m an ae ts d,
        RawRepositoryImpl.create_commit I (Option.some h) m an ae ts d =
          Option.some ((I.create_commit h m an ae ts d).2,
            Option.some (I.create_commit h m an ae ts d).1)) ∧
      (∀ sc, RawRepositoryImpl.create_semantic_commit I (Option.some h) sc =
        Option.some ((I.create_semantic_commit h sc).2,
          Option.some (I.create_semantic_commit h sc).1)) ∧
      (∀ c, RawRepositoryImpl.read_semantic_commit I (Option.some h) c =
        Option.some (I.read_semantic_commit h c, Option.some h)) ∧
      (RawRepositoryImpl.run_garbage_collection I (Option.some h) =
        Option.some ((I.run_garbage_collection h).2,
          Option.some (I.run_garbage_collection h).1)) ∧
      (RawRepositoryImpl.checkout_clean I (Option.some h) =
        Option.some ((I.checkout_clean h).2,
          Option.some (I.checkout_clean h).1)) ∧
      (∀ b, RawRepositoryImpl.checkout I (Option.some h) b =
        Option.some ((I.checkout h b).2, Option.some (I.checkout h b).1)) ∧
      (∀ c, RawRepositoryImpl.checkout_detach I (Option.some h) c =
        Option.some ((I.checkout_detach h c).2,
          Option.some (I.checkout_detach h c).1)) ∧
      (RawRepositoryImpl.get_head I (Option.some h) =
        Option.some (I.get_head h, Option.some h)) ∧
      (RawRepositoryImpl.get_initial_commit I (Option.some h) =
        Option.some (I.get_initial_commit h, Option.some h)) ∧
      (∀ c, RawRepositoryImpl.get_patch I (Option.some h) c =
        Option.some (I.get_patch h c, Option.some h)) ∧
      (∀ c, RawRepositoryImpl.show_commit I (Option.some h) c =
        Option.some (I.show_commit h c, Option.some h)) ∧
      (∀ c m, RawRepositoryImpl.list_ancestors I (Option.some h) c m =
        Option.some (I.list_ancestors h c m, Option.some h)) ∧
      (∀ a d, RawRepositoryImpl.query_commit_path I (Option.some h) a d =
        Option.some (I.query_commit_path h a d, Option.some h)) ∧
      (∀ c, RawRepositoryImpl.list_children I (Option.some h) c =
        Option.some (I.list_children h c, Option.some h)) ∧
      (∀ c1 c2, RawRepositoryImpl.find_merge_base I (Option.some h) c1 c2 =
        Option.some (I.find_merge_base h c1 c2, Option.some h)) ∧
      (RawRepositoryImpl.read_reserved_state I (Option.some h) =
        Option.some (I.read_reserved_state h, Option.some h)) ∧
      (∀ n u, RawRepositoryImpl.add_remote I (Option.some h) n u =
        Option.some ((I.add_remote h n u).2,
          Option.some (I.add_remote h n u).1)) ∧
      (∀ n, RawRepositoryImpl.remove_remote I (Option.some h) n =
        Option.some ((I.remove_remote h n).2,
          Option.some (I.remove_remote h n).1)) ∧
      (RawRepositoryImpl.fetch_all I (Option.some h) =
        Option.some ((I.fetch_all h).2, Option.some (I.fetch_all h).1)) ∧
      (∀ n b o, RawRepositoryImpl.push_option I (Option.some h) n b o =
        Option.some (I.push_option h n b o, Option.some h)) ∧
      (RawRepositoryImpl.list_remotes I (Option.some h) =
        Option.some (I.list_remotes h, Option.some h)) ∧
      (RawRepositoryImpl.list_remote_tracking_branches I (Option.some h) =
        Option.some (I.list_remote_tracking_branches h, Option.some h)) ∧
      (∀ n b,
        RawRepositoryImpl.locate_remote_tracking_branch I (Option.some h) n b =
          Option.some (I.locate_remote_tracking_branch h n b,
            Option.some h)) := by
  intro H I h
  exact ⟨fun _ => rfl, rfl, fun _ _ => rfl, fun _ => rfl, fun _ => rfl,
    fun _ _ => rfl, fun _ => rfl, rfl, fun _ _ => rfl, fun _ => rfl,
    fun _ => rfl, fun _ => rfl, fun _ _ _ _ _ => rfl, fun _ => rfl,
    fun _ => rfl, rfl, rfl, fun _ => rfl, fun _ => rfl, rfl, rfl,
    fun _ => rfl, fun _ => rfl, fun _ _ => rfl, fun _ _ => rfl,
    fun _ => rfl, fun _ _ => rfl, rfl, fun _ _ => rfl, fun _ => rfl, rfl,
    fun _ _ _ => rfl, rfl, rfl, fun _ _ => rfl⟩

/-- Claim C4: the error taxonomy has exactly the four variants
`Git2Error` / `NotFound` / `InvalidRepository` / `Unknown`; a backend
(`git2`) error is converted by `From` into the backend-error variant
carrying the error unchanged, its message passed through to the display
string; and no operation retries — a completed helper run applies the
dispatched work exactly once to the checked-out handle, and the result
handed to the caller is exactly that single application's value. -/
theorem claim_C4_error_taxonomy_no_retry :
    (∀ g : Git2Error, Error.fromGit2 g = Error.git2Error g) ∧
    (∀ g : Git2Error,
      (Error.fromGit2 g).display = "git2 error: " ++ g.message) ∧
    (∀ e : Error,
      (∃ g, e = Error.git2Error g) ∨ (∃ s, e = Error.notFound s) ∨
      (∃ s, e = Error.invalidRepository s) ∨ (∃ s, e = Error.unknown s)) ∧
    (∀ (H R : Type) (f : H → R × H) (h : H) (sl : Option H) (r : R),
      BridgeReach f (BridgeState.ready (Option.some h))
          (BridgeState.finished sl r) →
        r = (f h).1 ∧ sl = Option.some (f h).2) := by
  refine ⟨fun g => rfl, fun g => rfl, ?_, ?_⟩
  · intro e
    cases e with
    | git2Error g => exact Or.inl ⟨g, rfl⟩
    | notFound s => exact Or.inr (Or.inl ⟨s, rfl⟩)
    | invalidRepository s => exact Or.inr (Or.inr (Or.inl ⟨s, rfl⟩))
    | unknown s => exact Or.inr (Or.inr (Or.inr ⟨s, rfl⟩))
  · intro H R f h sl r hr
    rcases bridgeReach_ready_some f h _ hr with h1 | h1 | h1 | h1 | h1 <;>
      first
        | exact BridgeState.noConfusion h1
        | (injection h1 with h2 h3; exact ⟨h3, h2⟩)

/-- Witness for C4 at a concrete completed run: the result delivered by
the bridge for work `n ↦ (n + 7, n + 1)` on handle `0` is the single
application's value `7`, and the reinserted handle is its `1`. -/
theorem claim_C4_error_taxonomy_no_retry_witness :
    (7 : Nat) = ((fun n : Nat => (n + 7, n + 1)) 0).1 ∧
    (Option.some 1 : Option Nat) =
      Option.some ((fun n : Nat => (n + 7, n + 1)) 0).2 := by
  have hstep1 : BridgeStep (fun n : Nat => (n + 7, n + 1))
      (BridgeState.ready (Option.some 0)) (BridgeState.inFlight Option.none 0) :=
    BridgeStep.take 0
  have hstep2 : BridgeStep (fun n : Nat => (n + 7, n + 1))
      (BridgeState.inFlight Option.none 0)
      (BridgeState.returned Option.none 1 7) :=
    BridgeStep.runBlocking Option.none 0
  have hstep3 : BridgeStep (fun n : Nat => (n + 7, n + 1))
      (BridgeState.returned Option.none 1 7)
      (BridgeState.finished (Option.some 1) 7) :=
    BridgeStep.reinsert Option.none 1 7
  exact claim_C4_error_taxonomy_no_retry.2.2.2 Nat Nat
    (fun n : Nat => (n + 7, n + 1)) 0 (Option.some 1) 7
    (Relation.ReflTransGen.head hstep1
      (Relation.ReflTransGen.head hstep2
        (Relation.ReflTransGen.head hstep3 Relation.ReflTransGen.refl)))

/-- Claim C5: `create_semantic_commit` succeeds exactly when the diff is
the `None` or `Reserved` variant — any other variant fails with
`InvalidRepository` — and on success the new commit is appended as a
child of the current `HEAD` of the checked-out branch (its sole parent
is the prior head and `HEAD` moves to it). -/
theorem claim_C5_create_semantic_commit_diff_gate :
    ∀ (repo : RepoState) (sc : SemanticCommit),
      (∀ p, sc.diff = Diff.general p →
        ∃ s, repo.create_semantic_commit sc =
          Except.error (Error.invalidRepository s)) ∧
      ((sc.diff = Diff.none ∨ ∃ rs, sc.diff = Diff.reserved rs) →
        ∃ h repo', repo.create_semantic_commit sc = Except.ok (h, repo') ∧
          (repo'.commits.lookup h).map PhysCommit.parents =
            Option.some [repo.head] ∧
          repo'.head = h) ∧
      ((∃ h repo', repo.create_semantic_commit sc = Except.ok (h, repo')) →
        sc.diff = Diff.none ∨ ∃ rs, sc.diff = Diff.reserved rs) := by
  intro repo sc
  obtain ⟨t, b, d, a, ts⟩ := sc
  cases d with
  | general p =>
    refine ⟨fun q hq => ⟨"diff type not supported", rfl⟩,
      fun hlegal => ?_, fun hsucc => ?_⟩
    · rcases hlegal with hno | ⟨rs, hres⟩
      · exact Diff.noConfusion hno
      · exact Diff.noConfusion hres
    · rcases hsucc with ⟨h, repo', heq⟩
      exact Except.noConfusion heq
  | none =>
    refine ⟨fun q hq => Diff.noConfusion hq, fun _ => ?_,
      fun _ => Or.inl rfl⟩
    refine ⟨repo.nextHash, _, rfl, ?_, rfl⟩
    simp [List.lookup]
  | reserved rs =>
    refine ⟨fun q hq => Diff.noConfusion hq, fun _ => ?_,
      fun _ => Or.inr ⟨rs, rfl⟩⟩
    refine ⟨repo.nextHash, _, rfl, ?_, rfl⟩
    simp [List.lookup]

/-- Witness for C5: on the empty repository, a `None`-diff semantic
commit succeeds and is parented on the prior head, and a `general`-diff
semantic commit fails with `InvalidRepository`. -/
theorem claim_C5_create_semantic_commit_diff_gate_witness :
    (∃ h repo',
      RepoState.create_semantic_commit ⟨[], 0, 1⟩
          ⟨"t", "b", Diff.none, "a", 0⟩ = Except.ok (h, repo') ∧
        (repo'.commits.lookup h).map PhysCommit.parents =
          Option.some [(⟨[], 0, 1⟩ : RepoState).head] ∧
        repo'.head = h) ∧
    (∃ s, RepoState.create_semantic_commit ⟨[], 0, 1⟩
        ⟨"t", "b", Diff.general "p", "a", 0⟩ =
      Except.error (Error.invalidRepository s)) :=
  ⟨(claim_C5_create_semantic_commit_diff_gate ⟨[], 0, 1⟩
      ⟨"t", "b", Diff.none, "a", 0⟩).2.1 (Or.inl rfl),
    (claim_C5_create_semantic_commit_diff_gate ⟨[], 0, 1⟩
      ⟨"t", "b", Diff.general "p", "a", 0⟩).1 "p" rfl⟩

/-- Claim C6: the semantic-commit encoding round-trips — whenever
`create_semantic_commit sc` returns hash `h`, `read_semantic_commit h`
on the resulting repository returns a `SemanticCommit` whose title,
body, and diff are identical to those of `sc`. -/
theorem claim_C6_semantic_commit_roundtrip :
    ∀ (repo : RepoState) (sc : SemanticCommit) (h : CommitHash)
      (repo' : RepoState),
      repo.create_semantic_commit sc = Except.ok (h, repo') →
      ∃ sc', repo'.read_semantic_commit h = Except.ok sc' ∧
        sc'.title = sc.title ∧ sc'.body = sc.body ∧ sc'.diff = sc.diff := by
  intro repo sc h repo' heq
  obtain ⟨t, b, d, a, ts⟩ := sc
  cases d with
  | general p => exact Except.noConfusion heq
  | none =>
    injection heq with hpair
    injection hpair with hh hr
    subst hh
    subst hr
    refine ⟨⟨t, b, Diff.none, a, ts⟩, ?_, rfl, rfl, rfl⟩
    simp [RepoState.read_semantic_commit, List.lookup]
  | reserved rs =>
    injection heq with hpair
    injection hpair with hh hr
    subst hh
    subst hr
    refine ⟨⟨t, b, Diff.reserved rs, a, ts⟩, ?_, rfl, rfl, rfl⟩
    simp [RepoState.read_semantic_commit, List.lookup]

/-- Witness for C6: creating the semantic commit
`("t", "b", None, "a", 3)` on the empty repository and reading hash `1`
back yields identical title, body, and diff. -/
theorem claim_C6_semantic_commit_roundtrip_witness :
    ∃ sc', RepoState.read_semantic_commit
        ⟨[(1, ⟨CommitContent.semantic "t" "b" Diff.none, [0], "a", 3⟩)],
          1, 2⟩ 1 = Except.ok sc' ∧
      sc'.title = "t" ∧ sc'.body = "b" ∧ sc'.diff = Diff.none :=
  claim_C6_semantic_commit_roundtrip ⟨[], 0, 1⟩ ⟨"t", "b", Diff.none, "a", 3⟩
    1 ⟨[(1, ⟨CommitContent.semantic "t" "b" Diff.none, [0], "a", 3⟩)], 1, 2⟩
    rfl

/-
Lemmas about the ancestor walk.
-/

/-- On a linear ancestor chain with enough fuel, the unbounded walk
returns the whole chain. -/
theorem ancestorWalk_of_chain {dag : CommitDag} {h : CommitHash}
    {l : List CommitHash} (hchain : LinearChain dag h l) :
    ∀ n, l.length < n → dag.ancestorWalk n h Option.none = Except.ok l := by
  induction hchain with
  | nil hpar =>
    intro n hlen
    cases n with
    | zero => omega
    | succ m => simp [CommitDag.ancestorWalk, hpar]
  | cons hpar htail ih =>
    intro n hlen
    cases n with
    | zero => omega
    | succ m =>
      simp [CommitDag.ancestorWalk, hpar, ih m (by simp at hlen; omega)]

/-- On a linear ancestor chain with enough fuel, the bounded walk
returns the first `m` entries of the chain. -/
theorem ancestorWalk_capped_of_chain {dag : CommitDag} {h : CommitHash}
    {l : List CommitHash} (hchain : LinearChain dag h l) :
    ∀ n, l.length < n → ∀ m,
      dag.ancestorWalk n h (Option.some m) = Except.ok (l.take m) := by
  induction hchain with
  | nil hpar =>
    intro n hlen m
    cases n with
    | zero => omega
    | succ k =>
      cases m with
      | zero => simp [CommitDag.ancestorWalk]
      | succ m2 => simp [CommitDag.ancestorWalk, hpar]
  | cons hpar htail ih =>
    intro n hlen m
    cases n with
    | zero => omega
    | succ k =>
      cases m with
      | zero => simp [CommitDag.ancestorWalk]
      | succ m2 =>
        simp [CommitDag.ancestorWalk, hpar,
          ih k (by simp at hlen; omega) m2, List.take_succ_cons]

/-- If following sole parents reaches a merge commit within the fuel,
the unbounded walk fails with `InvalidRepository`. -/
theorem ancestorWalk_merge {dag : CommitDag} {h : CommitHash} {n : Nat}
    (hmr : MergeReach dag h n) :
    ∀ k, n < k → ∃ s, dag.ancestorWalk k h Option.none =
      Except.error (Error.invalidRepository s) := by
  induction hmr with
  | here hpar =>
    intro k hk
    cases k with
    | zero => omega
    | succ k2 =>
      exact ⟨"merge commit encountered", by simp [CommitDag.ancestorWalk, hpar]⟩
  | there hpar htail ih =>
    intro k hk
    cases k with
    | zero => omega
    | succ k2 =>
      obtain ⟨s, hs⟩ := ih k2 (by omega)
      exact ⟨s, by simp [CommitDag.ancestorWalk, hpar, hs]⟩

/-- The last element of a nonempty linear ancestor chain is an initial
commit (it has no parents). -/
theorem linearChain_getLast {dag : CommitDag} {h : CommitHash}
    {l : List CommitHash} (hchain : LinearChain dag h l) :
    l ≠ [] → ∃ last, l.getLast? = Option.some last ∧
      dag.parents last = [] := by
  induction hchain with
  | nil hpar => intro hne; exact absurd rfl hne
  | cons hpar htail ih =>
    intro _
    cases htail with
    | nil hp2 => exact ⟨_, rfl, hp2⟩
    | cons hp2 htail2 =>
      obtain ⟨last, hget, hin⟩ := ih (by simp)
      exact ⟨last, by rw [List.getLast?_cons_cons]; exact hget, hin⟩

/-- Claim C8: on a linear history, `list_ancestors(h, max)` returns the
ancestors of `h` nearest-first — the first element is the direct parent
and, when `max` is absent, the last element is the initial commit —
returns at most `max` entries when `max` is given, and fails with
`InvalidRepository` whenever the traversal encounters a merge commit. -/
theorem claim_C8_list_ancestors_linear_history :
    (∀ (dag : CommitDag) (h : CommitHash) (l : List CommitHash),
      LinearChain dag h l → l.length ≤ dag.nodes.length →
        dag.list_ancestors h Option.none = Except.ok l ∧
        (∀ m, dag.list_ancestors h (Option.some m) = Except.ok (l.take m) ∧
          (l.take m).length ≤ m) ∧
        (∀ p l2, l = p :: l2 → dag.parents h = [p]) ∧
        (l ≠ [] → ∃ last, l.getLast? = Option.some last ∧
          dag.parents last = [])) ∧
    (∀ (dag : CommitDag) (h : CommitHash) (n : Nat),
      MergeReach dag h n → n ≤ dag.nodes.length →
        ∃ s, dag.list_ancestors h Option.none =
          Except.error (Error.invalidRepository s)) := by
  constructor
  · intro dag h l hchain hlen
    refine ⟨?_, ?_, ?_, linearChain_getLast hchain⟩
    · exact ancestorWalk_of_chain hchain dag.fuel
        (by simp [CommitDag.fuel]; omega)
    · intro m
      exact ⟨ancestorWalk_capped_of_chain hchain dag.fuel
        (by simp [CommitDag.fuel]; omega) m, List.length_take_le m l⟩
    · intro p l2 hl
      subst hl
      cases hchain with
      | cons hpar _ => exact hpar
  · intro dag h n hmr hn
    exact ancestorWalk_merge hmr dag.fuel (by simp [CommitDag.fuel]; omega)

/-- Witness for C8 on a three-commit linear DAG `2 → 1 → 0` and a merge
DAG where commit `2` has two parents. -/
theorem claim_C8_list_ancestors_linear_history_witness :
    CommitDag.list_ancestors ⟨[0, 1, 2], [(1, [0]), (2, [1])]⟩ 2
        Option.none = Except.ok [1, 0] ∧
    CommitDag.list_ancestors ⟨[0, 1, 2], [(1, [0]), (2, [1])]⟩ 2
        (Option.some 1) = Except.ok [1] ∧
    (∃ s, CommitDag.list_ancestors ⟨[0, 1, 2], [(2, [0, 1])]⟩ 2
        Option.none = Except.error (Error.invalidRepository s)) := by
  have hchain : LinearChain ⟨[0, 1, 2], [(1, [0]), (2, [1])]⟩ 2 [1, 0] :=
    LinearChain.cons rfl (LinearChain.cons rfl (LinearChain.nil rfl))
  have hmr : MergeReach ⟨[0, 1, 2], [(2, [0, 1])]⟩ 2 0 :=
    MergeReach.here rfl
  have hmain := claim_C8_list_ancestors_linear_history.1 _ 2 [1, 0] hchain
    (by decide)
  exact ⟨hmain.1, (hmain.2.1 1).1,
    claim_C8_list_ancestors_linear_history.2 _ 2 0 hmr (by decide)⟩

/-
Lemmas about the commit-path walk.
-/

/-- With enough fuel, the descent returns exactly the first-parent path
from just after the ancestor up to and including the descendant. -/
theorem pathWalk_of_path {dag : CommitDag} {anc desc : CommitHash}
    {cs : List CommitHash} (hpath : FirstParentPath dag anc desc cs) :
    ∀ n, cs.length < n → dag.pathWalk n anc desc = Except.ok cs := by
  induction hpath with
  | refl =>
    intro n hlen
    cases n with
    | zero => omega
    | succ m => simp [CommitDag.pathWalk]
  | step hne hpar htail ih =>
    intro n hlen
    cases n with
    | zero => omega
    | succ m =>
      simp [CommitDag.pathWalk, hne, hpar,
        ih m (by simp at hlen; omega)]

/-- With enough fuel, the first-parent distance equals the length of the
first-parent path. -/
theorem distance_of_path {dag : CommitDag} {anc desc : CommitHash}
    {cs : List CommitHash} (hpath : FirstParentPath dag anc desc cs) :
    ∀ n, cs.length < n →
      dag.distance n anc desc = Option.some cs.length := by
  induction hpath with
  | refl =>
    intro n hlen
    cases n with
    | zero => omega
    | succ m => simp [CommitDag.distance]
  | step hne hpar htail ih =>
    intro n hlen
    cases n with
    | zero => omega
    | succ m =>
      simp [CommitDag.distance, hne, hpar,
        ih m (by simp at hlen; omega)]

/-- A first-parent path between distinct commits ends at the descendant. -/
theorem firstParentPath_getLast {dag : CommitDag} {anc desc : CommitHash}
    {cs : List CommitHash} (hpath : FirstParentPath dag anc desc cs) :
    anc ≠ desc → cs.getLast? = Option.some desc := by
  cases hpath with
  | refl => intro hne; exact absurd rfl hne
  | step hne hpar htail => intro _; exact List.getLast?_concat _

/-- The ancestor itself never appears on a first-parent path. -/
theorem firstParentPath_not_mem {dag : CommitDag} {anc desc : CommitHash}
    {cs : List CommitHash} (hpath : FirstParentPath dag anc desc cs) :
    anc ∉ cs := by
  induction hpath with
  | refl => simp
  | step hne hpar htail ih =>
    simp only [List.mem_append, List.mem_singleton]
    rintro (hc | hc)
    · exact ih hc
    · exact hne hc.symm

/-- Claim C7: `query_commit_path(ancestor, descendant)` fails when the
two commits are equal, fails when `ancestor` is not the merge base of
the pair, and otherwise returns exactly the commits strictly after
`ancestor` up to and including `descendant` (the path excludes the
ancestor and ends at the descendant), whose count equals the DAG
distance between the two commits. -/
theorem claim_C7_query_commit_path_contract :
    (∀ (dag : CommitDag) (a : CommitHash),
      ∃ s, dag.query_commit_path a a =
        Except.error (Error.invalidRepository s)) ∧
    (∀ (dag : CommitDag) (a d mb : CommitHash), a ≠ d →
      dag.find_merge_base a d = Except.ok mb → mb ≠ a →
      ∃ s, dag.query_commit_path a d =
        Except.error (Error.invalidRepository s)) ∧
    (∀ (dag : CommitDag) (a d : CommitHash) (cs : List CommitHash), a ≠ d →
      dag.find_merge_base a d = Except.ok a →
      FirstParentPath dag a d cs → cs.length ≤ dag.nodes.length →
        dag.query_commit_path a d = Except.ok cs ∧
        dag.distance dag.fuel a d = Option.some cs.length ∧
        cs.getLast? = Option.some d ∧ a ∉ cs) := by
  refine ⟨?_, ?_, ?_⟩
  · intro dag a
    exact ⟨"same commits", by simp [CommitDag.query_commit_path]⟩
  · intro dag a d mb hne hmb hmba
    exact ⟨"not a merge base",
      by simp [CommitDag.query_commit_path, hne, hmb, hmba]⟩
  · intro dag a d cs hne hmb hpath hlen
    refine ⟨?_, ?_, firstParentPath_getLast hpath hne,
      firstParentPath_not_mem hpath⟩
    · simp [CommitDag.query_commit_path, hne, hmb]
      exact pathWalk_of_path hpath dag.fuel (by simp [CommitDag.fuel]; omega)
    · exact distance_of_path hpath dag.fuel (by simp [CommitDag.fuel]; omega)

/-- Witness for C7 on the linear DAG `2 → 1 → 0`: the path from `0` to
`2` is `[1, 2]` with DAG distance `2`, and equal endpoints fail. -/
theorem claim_C7_query_commit_path_contract_witness :
    CommitDag.query_commit_path ⟨[0, 1, 2], [(1, [0]), (2, [1])]⟩ 0 2 =
        Except.ok [1, 2] ∧
    CommitDag.distance ⟨[0, 1, 2], [(1, [0]), (2, [1])]⟩
        (CommitDag.fuel ⟨[0, 1, 2], [(1, [0]), (2, [1])]⟩) 0 2 =
      Option.some 2 ∧
    (∃ s, CommitDag.query_commit_path ⟨[0, 1, 2], [(1, [0]), (2, [1])]⟩ 1 1 =
      Except.error (Error.invalidRepository s)) := by
  have hpar1 : CommitDag.parents ⟨[0, 1, 2], [(1, [0]), (2, [1])]⟩ 1 =
      0 :: [] := rfl
  have hpar2 : CommitDag.parents ⟨[0, 1, 2], [(1, [0]), (2, [1])]⟩ 2 =
      1 :: [] := rfl
  have hp1 : FirstParentPath ⟨[0, 1, 2], [(1, [0]), (2, [1])]⟩ 0 1
      ([] ++ [1]) :=
    FirstParentPath.step (by decide) hpar1 FirstParentPath.refl
  have hp2 : FirstParentPath ⟨[0, 1, 2], [(1, [0]), (2, [1])]⟩ 0 2
      ([1] ++ [2]) :=
    FirstParentPath.step (by decide) hpar2 hp1
  have hmb : CommitDag.find_merge_base ⟨[0, 1, 2], [(1, [0]), (2, [1])]⟩ 0 2 =
      Except.ok 0 := rfl
  have hmain := claim_C7_query_commit_path_contract.2.2
    ⟨[0, 1, 2], [(1, [0]), (2, [1])]⟩ 0 2 [1, 2] (by decide) hmb hp2
    (by decide)
  exact ⟨hmain.1, hmain.2.1,
    claim_C7_query_commit_path_contract.1 ⟨[0, 1, 2], [(1, [0]), (2, [1])]⟩ 1⟩

/-- The set of common ancestors is symmetric in the two commits. -/
theorem commonAncestors_comm (dag : CommitDag) (h1 h2 : CommitHash) :
    dag.commonAncestors h1 h2 = dag.commonAncestors h2 h1 :=
  List.filter_congr (fun x _ => by rw [Bool.and_comm])

/-- Claim C9: `find_merge_base` is symmetric in its two arguments — for
every pair of commits `find_merge_base(h1, h2) == find_merge_base(h2, h1)`
— and when the two commits have no common ancestor the operation fails. -/
theorem claim_C9_find_merge_base_symmetric :
    (∀ (dag : CommitDag) (h1 h2 : CommitHash),
      dag.find_merge_base h1 h2 = dag.find_merge_base h2 h1) ∧
    (∀ (dag : CommitDag) (h1 h2 : CommitHash),
      dag.commonAncestors h1 h2 = [] →
      ∃ s, dag.find_merge_base h1 h2 =
        Except.error (Error.invalidRepository s)) := by
  constructor
  · intro dag h1 h2
    unfold CommitDag.find_merge_base
    rw [commonAncestors_comm]
  · intro dag h1 h2 hempty
    exact ⟨"no merge base", by simp [CommitDag.find_merge_base, hempty,
      CommitDag.pickDeepest]⟩

/-- Witness for C9 on a two-commit DAG with no edges: the merge base of
`0` and `1` is computed symmetrically and fails, as the pair has no
common ancestor. -/
theorem claim_C9_find_merge_base_symmetric_witness :
    CommitDag.find_merge_base ⟨[0, 1], []⟩ 0 1 =
        CommitDag.find_merge_base ⟨[0, 1], []⟩ 1 0 ∧
    (∃ s, CommitDag.find_merge_base ⟨[0, 1], []⟩ 0 1 =
      Except.error (Error.invalidRepository s)) :=
  ⟨claim_C9_find_merge_base_symmetric.1 ⟨[0, 1], []⟩ 0 1,
    claim_C9_find_merge_base_symmetric.2 ⟨[0, 1], []⟩ 0 1 rfl⟩

end Simperby
